import Mathlib

/-!
# Verification of the stryker metrics-to-PDF pipeline

Shallow embedding of the aggregation-and-rendering pipeline of the
`stryker` repository (Dynatrace metrics → grouped per-host report → charts
→ paginated PDF), translated from the Python sources:

* `metricAPI2PDF_Final.py`  — `fetch_host_name`, `group_data`,
  `generate_graph`, `create_pdf`, `sanitize_filename`;
* `metricsAPI.py`           — `generate_graph` (length-mismatch guard);
* `metricsAPI2PDF_V8.py`    — the per-metric scaling block inside
  `generate_graph`;
* `test_pig.py`             — the `isDiskOf` relationship probe.

Modelling conventions:
* JSON objects are Lean structures holding only the fields the code reads;
  an absent field is `none`.
* Python `dict` (insertion-ordered) is an association list; assignment
  `d[k] = v` replaces in place when the key exists and appends otherwise.
* Numbers are `ℚ`; a JSON `null` inside a `values` array is `none`.
* Python exceptions are made explicit: a function that can raise returns
  `Except PyErr _`; an exception swallowed by a `try/except` in the source
  is likewise absorbed in the embedding.
* The network is an oracle: `group_data` takes the name-resolution
  function as a parameter, and `fetch_host_name` takes the outcome of its
  single HTTP request as a parameter.
-/

/-- Python exceptions that the embedded code can raise. -/
inductive PyErr where
  /-- `IndexError`: indexing `[0]` into an empty list. -/
  | indexError : PyErr
  /-- `AttributeError`: calling `.get` on a non-dict value. -/
  | attributeError : PyErr
deriving Repr, DecidableEq

/-- One entry of a metric response's `data` array, with exactly the fields
`group_data` of `metricAPI2PDF_Final.py` reads (`dimensions`,
`timestamps`, `values`); `none` means the key is absent. -/
structure DataPoint where
  dimensions : Option (List String)
  timestamps : Option (List Int)
  values : Option (List (Option ℚ))
deriving Repr, DecidableEq

/-- One entry of the `result` array; only its `data` field is read. -/
structure ResultEntry where
  data : Option (List DataPoint)
deriving Repr, DecidableEq

/-- A raw per-metric API response; only its `result` field is read. -/
structure MetricData where
  result : Option (List ResultEntry)
deriving Repr, DecidableEq

/-- One grouped series exactly as `group_data` stores it:
`{"timestamps": ..., "values": ...}`. -/
structure Series where
  timestamps : List Int
  values : List (Option ℚ)
deriving Repr, DecidableEq

/-- Lookup in an insertion-ordered Python dict modelled as an
association list. -/
def alistLookup (k : String) : List (String × α) → Option α
  | [] => none
  | (k', v) :: rest => if k' = k then some v else alistLookup k rest

/-- Python dict assignment `d[k] = v`: replace in place if `k` is
present, append at the end otherwise. -/
def alistInsert (k : String) (v : α) : List (String × α) → List (String × α)
  | [] => [(k, v)]
  | (k', v') :: rest =>
    if k' = k then (k, v) :: rest else (k', v') :: alistInsert k v rest

/-- `grouped_data[host][metric]` as stored by `group_data`. -/
abbrev HostReport := List (String × Series)

/-- The whole `grouped_data` dict: resolved host name → host report. -/
abbrev AggReport := List (String × HostReport)

/-- `grouped_data[resolved_name][metric_name] = series`, creating the
host entry lazily (`if resolved_name not in grouped_data: ... = {}`). -/
def reportInsert (host metric : String) (s : Series) (r : AggReport) : AggReport :=
  alistInsert host (alistInsert metric s ((alistLookup host r).getD [])) r

/-- The mutable state threaded through `group_data`: the report being
built, the `host_name_cache` dict, the sequence of ids for which the
underlying `fetch_host_name` network lookup was actually invoked, and the
number of `logging.warning` diagnostics emitted for dropped points. -/
structure GroupState where
  report : AggReport
  cache : List (String × String)
  lookups : List String
  warnings : Nat
deriving Repr, DecidableEq

/-- Initial state of one `group_data` run. -/
def initGroupState : GroupState := ⟨[], [], [], 0⟩

/-- `host_id = data_point.get('dimensions', [None])[0]` followed by the
`if not host_id` falsy test: absent `dimensions` defaults to `[None]`
whose head is `None` (→ `ok none`, point dropped); a present but empty
list raises `IndexError`; otherwise the head is the id, with the empty
string being falsy as well. -/
def getHostId (dp : DataPoint) : Except PyErr (Option String) :=
  match dp.dimensions with
  | none => .ok none
  | some [] => .error .indexError
  | some (d :: _) => .ok (if d = "" then none else some d)

/-- The body of `group_data`'s inner loop for one `data_point`:
drop on a falsy host id (with a warning), otherwise resolve the host
name through `host_name_cache` (invoking the underlying lookup only on a
cache miss) and assign the series into the report. -/
def processPoint (resolve : String → String) (metricName : String)
    (dp : DataPoint) (st : GroupState) : Except PyErr GroupState :=
  match getHostId dp with
  | .error e => .error e
  | .ok none => .ok { st with warnings := st.warnings + 1 }
  | .ok (some hid) =>
    let st1 :=
      if (alistLookup hid st.cache).isSome then st
      else { st with cache := alistInsert hid (resolve hid) st.cache,
                     lookups := st.lookups ++ [hid] }
    let resolvedName := (alistLookup hid st1.cache).getD hid
    let s : Series := ⟨dp.timestamps.getD [], dp.values.getD []⟩
    .ok { st1 with report := reportInsert resolvedName metricName s st1.report }

/-- The inner `for data_point in ...` loop of `group_data`. -/
def processPoints (resolve : String → String) (metricName : String) :
    List DataPoint → GroupState → Except PyErr GroupState
  | [], st => .ok st
  | dp :: rest, st =>
    match processPoint resolve metricName dp st with
    | .error e => .error e
    | .ok st' => processPoints resolve metricName rest st'

/-- One iteration of `group_data`'s outer loop:
`metric_data.get('result', [])[0].get('data', [])`. The `.get('result',
[])` default is immediately indexed with `[0]`, so an absent or empty
`result` raises `IndexError`; an absent `data` defaults to `[]`. -/
def processMetric (resolve : String → String) (metricName : String)
    (md : MetricData) (st : GroupState) : Except PyErr GroupState :=
  match md.result with
  | none => .error .indexError
  | some [] => .error .indexError
  | some (r :: _) => processPoints resolve metricName (r.data.getD []) st

/-- The outer `for metric_name, metric_data in raw_data.items()` loop. -/
def groupFrom (resolve : String → String) :
    List (String × MetricData) → GroupState → Except PyErr GroupState
  | [], st => .ok st
  | (m, md) :: rest, st =>
    match processMetric resolve m md st with
    | .error e => .error e
    | .ok st' => groupFrom resolve rest st'

/-- `group_data(raw_data, api_url, headers)` of `metricAPI2PDF_Final.py`,
with the network abstracted into `resolve` (the value returned by
`fetch_host_name`, which per its `except` clause always returns). -/
def group_data (resolve : String → String)
    (raw : List (String × MetricData)) : Except PyErr GroupState :=
  groupFrom resolve raw initGroupState

/-- The body returned by the entities endpoint, as `fetch_host_name`
consumes it after a successful `response.json()`: a JSON object (of which
only `displayName` is read, `none` when absent) or a decodable value that
is not an object. -/
inductive JsonBody where
  | obj (displayName : Option String) : JsonBody
  | nonObj : JsonBody
deriving Repr, DecidableEq

/-- The outcome of the single HTTP request `fetch_host_name` performs,
covering every point where the `requests` calls can raise:
`requests.get` raising a `RequestException`, `raise_for_status` raising
`HTTPError` on a non-success status, `response.json()` raising
`JSONDecodeError` (a `RequestException` subclass), or a decoded body. -/
inductive EntityLookup where
  | transportError : EntityLookup
  | badStatus : EntityLookup
  | undecodable : EntityLookup
  | body (b : JsonBody) : EntityLookup
deriving Repr, DecidableEq

/-- The outcomes on which the `except requests.exceptions.RequestException`
clause of `fetch_host_name` fires. -/
def isRequestFailure : EntityLookup → Bool
  | .transportError => true
  | .badStatus => true
  | .undecodable => true
  | .body _ => false

/-- `fetch_host_name(api_url, headers, host_id)` of
`metricAPI2PDF_Final.py` over the outcome of its HTTP request. Returns
the resolved name together with a flag telling whether the failure branch
(`logging.warning`) ran. Every `RequestException` is caught and degrades
to the raw `host_id`; `entity_data.get("displayName", host_id)` on a
non-dict body raises `AttributeError`, which the `except` clause does not
cover. -/
def fetch_host_name (resp : EntityLookup) (host_id : String) :
    Except PyErr (String × Bool) :=
  match resp with
  | .transportError => .ok (host_id, true)
  | .badStatus => .ok (host_id, true)
  | .undecodable => .ok (host_id, true)
  | .body (.obj d) => .ok (d.getD host_id, false)
  | .body .nonObj => .error .attributeError

/-- `generate_graph(timestamps, values, metric_name)` of `metricsAPI.py`,
reduced to its data outcome: `None` when timestamps or values are empty,
`None` (with an error log) when their lengths differ, otherwise a chart
of exactly the given data. -/
def mAPI_generate_graph (timestamps : List Int) (values : List (Option ℚ)) :
    Option (List Int × List (Option ℚ)) :=
  if timestamps = [] ∨ values = [] then none
  else if timestamps.length ≠ values.length then none
  else some (timestamps, values)

/-- The Python list comprehension `[f(v) for v in values]` over nullable
values, as used by the scaling block of `metricsAPI2PDF_V8.py`
(`[v * 100 for v in values]` …): arithmetic on `None` raises `TypeError`,
so the comprehension fails as soon as any element is null; otherwise every
element is mapped. The error is reported as a unit (the surrounding
`except Exception` only distinguishes failure). -/
def mapScale (f : ℚ → ℚ) : List (Option ℚ) → Except Unit (List (Option ℚ))
  | [] => .ok []
  | none :: _ => .error ()
  | some v :: rest =>
    match mapScale f rest with
    | .error e => .error e
    | .ok l => .ok (some (f v) :: l)

/-- The per-metric scaling chain of `generate_graph` in
`metricsAPI2PDF_V8.py` (lines 141–150): Processor ×100, Average Disk Used
Percentage ×1000, Disk Write Time Per Second ×10, the two network
adapter metrics ÷1024, and no change for any other metric label. -/
def scale_values (metric_name : String) (values : List (Option ℚ)) :
    Except Unit (List (Option ℚ)) :=
  if metric_name = "Processor" then mapScale (fun v => v * 100) values
  else if metric_name = "Average Disk Used Percentage" then
    mapScale (fun v => v * 1000) values
  else if metric_name = "Disk Write Time Per Second" then
    mapScale (fun v => v * 10) values
  else if metric_name = "Network Adapter In" ∨ metric_name = "Network Adapter Out" then
    mapScale (fun v => v / 1024) values
  else .ok values

/-- `generate_graph` of `metricsAPI2PDF_V8.py`, reduced to its data
outcome: `None` when timestamps are empty or every value is null; the
whole body runs under `try/except Exception`, so a `TypeError` raised by
the scaling comprehension also yields `None`; otherwise a chart of the
timestamps and the scaled values. -/
def V8_generate_graph (timestamps : List Int) (values : List (Option ℚ))
    (metric_name : String) : Option (List Int × List (Option ℚ)) :=
  if timestamps = [] ∨ values.all (·.isNone) then none
  else
    match scale_values metric_name values with
    | .error _ => none
    | .ok scaled =>
      if timestamps.length ≠ scaled.length then none
      else some (timestamps, scaled)

/-- Whether a metric entry of a host section leads to a placed chart in
`create_pdf` of `metricAPI2PDF_Final.py`: the loop first skips when
`not timestamps or all(v is None for v in values)`, then skips when
`generate_graph` returns `None` — which, besides the same guard, happens
when `plt.plot` raises on mismatched lengths (caught by the
`try/except`). -/
def chartRendered (s : Series) : Bool :=
  !(s.timestamps = [] || s.values.all (·.isNone)) &&
    s.timestamps.length = s.values.length

/-- Page constants of `create_pdf` in `metricAPI2PDF_Final.py`:
`letter` height 792, `margin = 50`, `chart_height = 150`,
`chart_spacing = 30`. -/
def pageHeight : Int := 792
def pdfMargin : Int := 50
def chartHeight : Int := 150
def chartSpacing : Int := 30

/-- The layout cursor of `create_pdf`: current page number and
`y_position`. -/
structure LayoutSt where
  page : Nat
  y : Int
deriving Repr, DecidableEq

/-- One placed chart image: the page it was drawn on and the `y_position`
at drawing time; the image occupies the vertical band
`[top - chartHeight, top]` of that page
(`c.drawImage(..., y_position - chart_height, ..., height=chart_height)`). -/
structure Placement where
  page : Nat
  top : Int
deriving Repr, DecidableEq

/-- The metric loop of `create_pdf` for one host section: for each
rendered chart, `if y_position - chart_height - chart_spacing < margin:
start_new_page()` (which resets `y_position = height - margin`), then the
image is drawn at `y_position - chart_height` and the cursor advances by
`chart_height + chart_spacing`. -/
def placeCharts : List (String × Series) → LayoutSt → List Placement × LayoutSt
  | [], st => ([], st)
  | (_, s) :: rest, st =>
    if chartRendered s then
      let st1 := if st.y - chartHeight - chartSpacing < pdfMargin then
          ⟨st.page + 1, pageHeight - pdfMargin⟩ else st
      let out := placeCharts rest ⟨st1.page, st1.y - (chartHeight + chartSpacing)⟩
      (⟨st1.page, st1.y⟩ :: out.1, out.2)
    else placeCharts rest st

/-- The host loop of `create_pdf`: each host starts with
`start_new_page()` (cursor reset to `height - margin`), then the host
heading costs `20 + 30` of vertical space before its charts are laid
out. -/
def placeHosts : List (String × List (String × Series)) → LayoutSt → List Placement
  | [], _ => []
  | (_, ms) :: rest, st =>
    let st1 : LayoutSt := ⟨st.page + 1, pageHeight - pdfMargin - 20 - 30⟩
    let out := placeCharts ms st1
    out.1 ++ placeHosts rest out.2

/-- The chart placements produced by `create_pdf` of
`metricAPI2PDF_Final.py`: page 1 holds the title block
(`y_position -= 150` after starting at `height - margin`), and every
host section follows. -/
def create_pdf_placements (hosts : List (String × List (String × Series))) :
    List Placement :=
  placeHosts hosts ⟨1, pageHeight - pdfMargin - 150⟩

/-- Python whitespace, as matched both by `str.strip()` and by `\s` in
the `re` module (restricted to the ASCII range, the only characters the
claims exercise). -/
def isPySpace (c : Char) : Bool :=
  c = ' ' || c = '\t' || c = '\n' || c = '\x0d' || c = '\x0b' || c = '\x0c'

/-- Characters replaced by `re.sub(r'[<>:"/\\|?*]', '_', filename)`. -/
def isInvalidChar (c : Char) : Bool :=
  c = '<' || c = '>' || c = ':' || c = '"' || c = '/' || c = '\\' ||
    c = '|' || c = '?' || c = '*'

/-- Try to match the regex `\s*:\s*` at the head of the list: a maximal
whitespace run, a colon, a maximal whitespace run (the leading `\s*`
never backtracks usefully, since a colon is not whitespace); returns the
remainder after the match. -/
def colonMatch (l : List Char) : Option (List Char) :=
  match l.dropWhile isPySpace with
  | ':' :: rest => some (rest.dropWhile isPySpace)
  | _ => none

/-- Structural worker for the regex substitution: scan left to right,
replacing each leftmost non-overlapping `\s*:\s*` match by one
underscore. The fuel argument only forces structural recursion (each step
consumes at least one character, so `l.length` fuel is always enough and
the zero-fuel branch is never reached from `collapseColonWs`). -/
def collapseAux : Nat → List Char → List Char
  | 0, l => l
  | _ + 1, [] => []
  | fuel + 1, c :: cs =>
    match colonMatch (c :: cs) with
    | some rest => '_' :: collapseAux fuel rest
    | none => c :: collapseAux fuel cs

/-- `re.sub(r'\s*:\s*', '_', ...)` over the character list. -/
def collapseColonWs (l : List Char) : List Char :=
  collapseAux l.length l

/-- `re.sub(r'[<>:"/\\|?*]', '_', filename)`. -/
def replaceInvalid (l : List Char) : List Char :=
  l.map (fun c => if isInvalidChar c then '_' else c)

/-- Python `str.strip()`: remove leading and trailing whitespace. -/
def pyStrip (l : List Char) : List Char :=
  ((l.dropWhile isPySpace).reverse.dropWhile isPySpace).reverse

/-- `sanitize_filename` of `metricAPI2PDF_Final.py` on the character
list: the `\s*:\s*` collapse (guarded by `if ':' in filename`), then the
invalid-character substitution, then `strip()`. -/
def sanitizeList (l : List Char) : List Char :=
  pyStrip (replaceInvalid (if l.contains ':' then collapseColonWs l else l))

/-- `sanitize_filename(filename)` of `metricAPI2PDF_Final.py`. -/
def sanitize_filename (s : String) : String :=
  ⟨sanitizeList s.data⟩

/-- The relationship probe of `test_pig.py` (lines 86–90): read
`fromRelationships` (default `{}`) from the entity body and report the
`isDiskOf` entry when present; the probe only logs either way and builds
no report. Returns the hosts found (if any) and the log line emitted. -/
def isDiskOf_probe (fromRelationships : Option (List (String × List String))) :
    Option (List String) × String :=
  match alistLookup "isDiskOf" (fromRelationships.getD []) with
  | some hosts => (some hosts, "Disk is associated with host(s)")
  | none => (none, "No 'isDiskOf' relationship found for this disk.")

/-! ## Association-list facts used by several claims -/

theorem alistLookup_insert_self (k : String) (v : α) (l : List (String × α)) :
    alistLookup k (alistInsert k v l) = some v := by
  induction l with
  | nil => simp [alistInsert, alistLookup]
  | cons p rest ih =>
    obtain ⟨pk, pv⟩ := p
    by_cases h : pk = k
    · simp [alistInsert, alistLookup, h]
    · simp [alistInsert, alistLookup, h, ih]

theorem alistLookup_insert_ne {k' k : String} (h : k' ≠ k) (v : α)
    (l : List (String × α)) :
    alistLookup k' (alistInsert k v l) = alistLookup k' l := by
  have hk : k ≠ k' := fun he => h he.symm
  induction l with
  | nil => simp [alistInsert, alistLookup, hk]
  | cons p rest ih =>
    obtain ⟨pk, pv⟩ := p
    by_cases hp : pk = k
    · simp [alistInsert, alistLookup, hp, hk, ih]
    · simp [alistInsert, alistLookup, hp, ih]

theorem mem_of_alistInsert {k : String} {v : α} {x : String × α}
    {l : List (String × α)} (h : x ∈ alistInsert k v l) :
    x = (k, v) ∨ x ∈ l := by
  induction l with
  | nil => simpa [alistInsert] using h
  | cons p rest ih =>
    obtain ⟨pk, pv⟩ := p
    by_cases hp : pk = k
    · simp only [alistInsert, hp, if_pos rfl] at h
      rcases List.mem_cons.1 h with h | h
      · exact .inl h
      · exact .inr (List.mem_cons_of_mem _ h)
    · simp only [alistInsert, if_neg hp] at h
      rcases List.mem_cons.1 h with h | h
      · exact .inr (h ▸ List.mem_cons_self _ _)
      · rcases ih h with h | h
        · exact .inl h
        · exact .inr (List.mem_cons_of_mem _ h)

theorem mem_of_alistLookup {k : String} {v : α} {l : List (String × α)}
    (h : alistLookup k l = some v) : (k, v) ∈ l := by
  induction l with
  | nil => simp [alistLookup] at h
  | cons p rest ih =>
    obtain ⟨pk, pv⟩ := p
    by_cases hp : pk = k
    · subst hp
      simp only [alistLookup, if_true, eq_self_iff_true, Option.some.injEq] at h
      subst h
      exact List.mem_cons_self _ _
    · simp only [alistLookup, if_neg hp] at h
      exact List.mem_cons_of_mem _ (ih h)

/-! ## C1 -/

/-- C1: refuted as stated — `group_data` is not total. A response whose
`result` key is absent, or whose `result` list is empty, raises
`IndexError` at `metric_data.get('result', [])[0]`; a data point with a
present but empty `dimensions` list raises `IndexError` at
`data_point.get('dimensions', [None])[0]`. The third conjunct shows that
the crash also discards the series of every other metric already grouped
(the whole aggregation dies), contradicting "every other series is still
grouped". -/
theorem group_data_crashes_on_shape_failures :
    group_data (fun s => s) [("Processor", ⟨none⟩)] = .error .indexError ∧
    group_data (fun s => s) [("Processor", ⟨some []⟩)] = .error .indexError ∧
    group_data (fun s => s)
      [("Memory", ⟨some [⟨some [⟨some ["HOST-1"], some [1], some [some 1]⟩]⟩]⟩),
       ("Processor", ⟨some [⟨some [⟨some [], some [1], some [some 1]⟩]⟩]⟩)] =
      .error .indexError :=
  ⟨rfl, rfl, rfl⟩

/-! ## C6 -/

/-- C6 counterexample: a malformed response body that decodes to a JSON
value other than an object (e.g. a list) makes `fetch_host_name` raise an
uncaught `AttributeError` at `entity_data.get("displayName", host_id)` —
it neither returns the raw entity id nor absorbs the exception, contrary
to the claim that no lookup failure propagates. -/
theorem fetch_host_name_nonobj_raises :
    fetch_host_name (.body .nonObj) "HOST-1" = .error .attributeError := rfl

/-- C6 amended: when the lookup fails with a `RequestException` — a
transport error, a non-success HTTP status, or a body that fails JSON
decoding — `fetch_host_name` returns the raw entity id unchanged,
records the failure, and lets no exception propagate. -/
theorem fetch_host_name_request_failures_degrade (resp : EntityLookup)
    (host_id : String) (h : isRequestFailure resp = true) :
    fetch_host_name resp host_id = .ok (host_id, true) := by
  cases resp with
  | transportError => rfl
  | badStatus => rfl
  | undecodable => rfl
  | body b => simp [isRequestFailure] at h

/-- Witness for the C6 amended theorem at a concrete transport error. -/
theorem fetch_host_name_request_failures_degrade_witness :
    isRequestFailure .transportError = true ∧
    fetch_host_name .transportError "HOST-1" = .ok ("HOST-1", true) :=
  ⟨rfl, fetch_host_name_request_failures_degrade .transportError "HOST-1" rfl⟩

/-! ## C8 -/

/-- The regex `\s*:\s*` cannot match a colon-free string. -/
theorem colonMatch_eq_none {l : List Char} (h : ':' ∉ l) :
    colonMatch l = none := by
  unfold colonMatch
  cases hd : l.dropWhile isPySpace with
  | nil => rfl
  | cons c cs =>
    have hmem : c ∈ l :=
      (List.dropWhile_sublist isPySpace).subset (hd ▸ List.mem_cons_self c cs)
    have hc : c ≠ ':' := fun he => h (he ▸ hmem)
    split
    · next rest heq =>
      exact absurd (List.head_eq_of_cons_eq heq.symm) (fun he => hc he.symm)
    · rfl

/-- The `\s*:\s*` substitution leaves a colon-free string unchanged,
regardless of fuel. -/
theorem collapseAux_of_no_colon (fuel : Nat) (l : List Char) (h : ':' ∉ l) :
    collapseAux fuel l = l := by
  induction fuel generalizing l with
  | zero => rfl
  | succ n ih =>
    cases l with
    | nil => rfl
    | cons c cs =>
      rw [collapseAux, colonMatch_eq_none h]
      exact congrArg (c :: ·) (ih cs (fun hm => h (List.mem_cons_of_mem _ hm)))

/-- C8: `sanitize_filename` first replaces every
whitespace*-colon-whitespace* pattern by a single underscore
(`collapseColonWs`, the `if ':' in filename` guard being immaterial since
the regex needs a colon), then replaces each of the characters
`<>:"/\|?*` by an underscore, then strips the ends; in particular
`"Team: Alpha_01"` sanitizes to `"Team_Alpha_01"`. -/
theorem sanitize_filename_spec :
    (∀ s : String, sanitize_filename s =
      ⟨pyStrip (replaceInvalid (collapseColonWs s.data))⟩) ∧
    sanitize_filename "Team: Alpha_01" = "Team_Alpha_01" := by
  refine ⟨fun s => ?_, rfl⟩
  unfold sanitize_filename sanitizeList
  by_cases h : s.data.contains ':'
  · rw [if_pos h]
  · rw [if_neg h]
    have hmem : ':' ∉ s.data := by
      simpa using h
    rw [collapseColonWs, collapseAux_of_no_colon _ _ hmem]

/-! ## C9 -/

/-- The invalid-character substitution leaves no invalid character: the
replacement `'_'` is itself valid. -/
theorem replaceInvalid_no_invalid {c : Char} (h : c ∈ replaceInvalid l) :
    isInvalidChar c = false := by
  unfold replaceInvalid at h
  obtain ⟨a, _, ha⟩ := List.mem_map.1 h
  by_cases hi : isInvalidChar a
  · rw [if_pos hi] at ha
    rw [← ha]
    rfl
  · rw [if_neg hi] at ha
    rw [← ha]
    exact Bool.not_eq_true _ ▸ hi

/-- Stripping only removes characters. -/
theorem pyStrip_sublist (p : List Char) : List.Sublist (pyStrip p) p := by
  unfold pyStrip
  have h1 : List.Sublist (p.dropWhile isPySpace) p := List.dropWhile_sublist _
  have h2 : List.Sublist ((p.dropWhile isPySpace).reverse.dropWhile isPySpace)
      (p.dropWhile isPySpace).reverse := List.dropWhile_sublist _
  have h3 := h2.reverse
  rw [List.reverse_reverse] at h3
  exact h3.trans h1

/-- The head of a `dropWhile` result always falsifies the predicate. -/
theorem dropWhile_head_false {p : Char → Bool} {m : List Char} {c : Char}
    {cs : List Char} (h : m.dropWhile p = c :: cs) : p c = false := by
  induction m with
  | nil => simp at h
  | cons a as ih =>
    by_cases hp : p a
    · rw [List.dropWhile_cons, if_pos hp] at h
      exact ih h
    · rw [List.dropWhile_cons, if_neg hp] at h
      cases h
      exact Bool.not_eq_true _ ▸ hp

/-- `dropWhile` fixes any list whose head already falsifies the
predicate. -/
theorem dropWhile_eq_self_of_head {p : Char → Bool} {m : List Char}
    (h : ∀ c ∈ m.head?, p c = false) : m.dropWhile p = m := by
  cases m with
  | nil => rfl
  | cons c cs =>
    rw [List.dropWhile_cons, if_neg]
    simp only [List.head?_cons, Option.mem_def, Option.some.injEq] at h
    simp [h c rfl]

/-- Python `strip()` is idempotent. -/
theorem pyStrip_idem (l : List Char) : pyStrip (pyStrip l) = pyStrip l := by
  set p := isPySpace with hp
  set A := l.dropWhile p with hA
  set B := A.reverse.dropWhile p with hB
  have hps : pyStrip l = B.reverse := rfl
  have hfront : B.reverse.dropWhile p = B.reverse := by
    apply dropWhile_eq_self_of_head
    intro c hc
    cases hrev : B.reverse with
    | nil => rw [hrev] at hc; simp at hc
    | cons d ds =>
      rw [hrev] at hc
      simp only [List.head?_cons, Option.mem_def, Option.some.injEq] at hc
      subst hc
      have hsuf : B <:+ A.reverse := hB ▸ List.dropWhile_suffix p
      have hpre : B.reverse <+: A := by
        rw [← List.reverse_reverse A]
        exact List.reverse_prefix.mpr hsuf
      obtain ⟨t, ht⟩ := hpre
      rw [hrev] at ht
      have hd : l.dropWhile p = d :: (ds ++ t) := by
        rw [← hA, ← ht]
        rfl
      exact dropWhile_head_false hd
  have hback : B.dropWhile p = B := hB ▸ List.dropWhile_idempotent p A.reverse
  rw [hps]
  unfold pyStrip
  rw [hfront, List.reverse_reverse, hback]

/-- Every character surviving `sanitizeList` survived the
invalid-character substitution. -/
theorem sanitizeList_no_invalid {c : Char} {l : List Char}
    (h : c ∈ sanitizeList l) : isInvalidChar c = false := by
  unfold sanitizeList at h
  exact replaceInvalid_no_invalid ((pyStrip_sublist _).subset h)

/-- The invalid-character substitution fixes a clean list. -/
theorem replaceInvalid_eq_self {l : List Char}
    (h : ∀ c ∈ l, isInvalidChar c = false) : replaceInvalid l = l := by
  unfold replaceInvalid
  rw [List.map_congr_left (g := id) (fun a ha => by simp [h a ha]), List.map_id]

/-- C9: `sanitize_filename` is idempotent — sanitizing an
already-sanitized name returns it unchanged: the first pass leaves no
colon (so the `\s*:\s*` collapse is skipped), no invalid character (so
the substitution fixes the string), and no leading or trailing
whitespace (so the strip fixes it too). -/
theorem sanitize_filename_idem (s : String) :
    sanitize_filename (sanitize_filename s) = sanitize_filename s := by
  show (⟨sanitizeList (sanitizeList s.data)⟩ : String) = ⟨sanitizeList s.data⟩
  have hclean : ∀ c ∈ sanitizeList s.data, isInvalidChar c = false :=
    fun c hc => sanitizeList_no_invalid hc
  have hnocolon : (sanitizeList s.data).contains ':' = false := by
    rw [Bool.eq_false_iff]
    intro h
    have hm : ':' ∈ sanitizeList s.data := by simpa using h
    have := hclean _ hm
    simp [isInvalidChar] at this
  congr 1
  conv_lhs => rw [sanitizeList]
  rw [hnocolon]
  show pyStrip (replaceInvalid (sanitizeList s.data)) = sanitizeList s.data
  rw [replaceInvalid_eq_self hclean]
  conv_rhs => rw [sanitizeList]
  conv_lhs => rw [sanitizeList]
  exact pyStrip_idem _

/-! ## C3 -/

/-- C3: refuted — the per-metric scaling of `metricsAPI2PDF_V8.py` does
not map a null value to a null value. For a metric with a registered
scale rule, one null inside an otherwise usable series makes the
comprehension `[v * 100 for v in values]` raise `TypeError` (first
conjunct); the surrounding `try/except Exception` turns that into a
dropped chart, so the null maps to a failure of the whole series (second
conjunct). For a metric with no registered rule the values do pass
through unchanged, nulls included (third conjunct). -/
theorem scale_values_null_raises :
    scale_values "Processor" [some (1 / 2), none] = .error () ∧
    V8_generate_graph [1, 2] [some (1 / 2), none] "Processor" = none ∧
    scale_values "Memory" [some (1 / 2), none] = .ok [some (1 / 2), none] :=
  ⟨rfl, rfl, rfl⟩

/-! ## C2 -/

/-- The list of data points `group_data` iterates for one metric
response (empty when the shape would instead raise). -/
def rawPoints (md : MetricData) : List DataPoint :=
  match md.result with
  | some (r :: _) => r.data.getD []
  | _ => []

/-- The series `group_data` would store for a data point: its
`timestamps` and `values` exactly as found (defaulting to `[]`). -/
def seriesOfPoint (dp : DataPoint) : Series :=
  ⟨dp.timestamps.getD [], dp.values.getD []⟩

/-- Every series constructible from the raw input. -/
def rawSeries (raw : List (String × MetricData)) : List Series :=
  raw.flatMap (fun p => (rawPoints p.2).map seriesOfPoint)

/-- Every series stored anywhere in an aggregated report. -/
def reportSeries (r : AggReport) : List Series :=
  r.flatMap (fun h => h.2.map (fun ms => ms.2))

/-- C2 counterexample: a series with two timestamps but one value (a
length mismatch) is stored by `group_data` and appears in the aggregated
report — it is not dropped (nor truncated or padded), contrary to the
claim that the aggregator drops such a series entirely. -/
theorem group_data_keeps_mismatched_series :
    group_data (fun _ => "web-01")
        [("Processor", ⟨some [⟨some [⟨some ["HOST-1"], some [1, 2], some [some 5]⟩]⟩]⟩)] =
      .ok ⟨[("web-01", [("Processor", ⟨[1, 2], [some 5]⟩)])],
        [("HOST-1", "web-01")], ["HOST-1"], 0⟩ :=
  rfl

theorem reportSeries_insert {a s : Series} {host m : String} {r : AggReport}
    (h : a ∈ reportSeries (reportInsert host m s r)) :
    a = s ∨ a ∈ reportSeries r := by
  unfold reportSeries reportInsert at h
  unfold reportSeries
  obtain ⟨pair, hpair, ha⟩ := List.mem_flatMap.1 h
  rcases mem_of_alistInsert hpair with hp | hp
  · subst hp
    obtain ⟨ms, hms, ha'⟩ := List.mem_map.1 ha
    rcases mem_of_alistInsert hms with hm | hm
    · subst hm
      exact .inl ha'.symm
    · cases hlook : alistLookup host r with
      | none =>
        rw [hlook] at hm
        simp at hm
      | some hr =>
        rw [hlook] at hm
        refine .inr (List.mem_flatMap.2 ⟨(host, hr), mem_of_alistLookup hlook, ?_⟩)
        exact ha' ▸ List.mem_map_of_mem _ hm
  · exact .inr (List.mem_flatMap.2 ⟨pair, hp, ha⟩)

theorem processPoint_series {a : Series}
    (h : processPoint resolve m dp st = .ok st')
    (ha : a ∈ reportSeries st'.report) :
    a = seriesOfPoint dp ∨ a ∈ reportSeries st.report := by
  unfold processPoint at h
  cases hg : getHostId dp with
  | error e => rw [hg] at h; exact absurd h (by simp)
  | ok o =>
    cases o with
    | none =>
      rw [hg] at h
      simp only [Except.ok.injEq] at h
      subst h
      exact .inr ha
    | some hid =>
      rw [hg] at h
      simp only [Except.ok.injEq] at h
      subst h
      by_cases hc : (alistLookup hid st.cache).isSome
      · rw [if_pos hc] at ha
        exact reportSeries_insert ha
      · rw [if_neg hc] at ha
        exact reportSeries_insert ha

theorem processPoints_series {a : Series} {dps : List DataPoint}
    (h : processPoints resolve m dps st = .ok st')
    (ha : a ∈ reportSeries st'.report) :
    a ∈ dps.map seriesOfPoint ∨ a ∈ reportSeries st.report := by
  induction dps generalizing st with
  | nil =>
    simp only [processPoints, Except.ok.injEq] at h
    subst h
    exact .inr ha
  | cons dp rest ih =>
    simp only [processPoints] at h
    cases hp : processPoint resolve m dp st with
    | error e => rw [hp] at h; exact absurd h (by simp)
    | ok stm =>
      rw [hp] at h
      rcases ih h with hr | hr
      · exact .inl (List.mem_cons_of_mem _ hr)
      · rcases processPoint_series hp hr with he | he
        · exact .inl (he ▸ List.mem_cons_self _ _)
        · exact .inr he

theorem processMetric_series {a : Series}
    (h : processMetric resolve m md st = .ok st')
    (ha : a ∈ reportSeries st'.report) :
    a ∈ (rawPoints md).map seriesOfPoint ∨ a ∈ reportSeries st.report := by
  unfold processMetric at h
  unfold rawPoints
  cases hres : md.result with
  | none => rw [hres] at h; exact absurd h (by simp)
  | some rs =>
    cases rs with
    | nil => rw [hres] at h; exact absurd h (by simp)
    | cons r rest =>
      rw [hres] at h
      exact processPoints_series h ha

theorem groupFrom_series {a : Series} {raw : List (String × MetricData)}
    (h : groupFrom resolve raw st = .ok st')
    (ha : a ∈ reportSeries st'.report) :
    a ∈ rawSeries raw ∨ a ∈ reportSeries st.report := by
  induction raw generalizing st with
  | nil =>
    simp only [groupFrom, Except.ok.injEq] at h
    subst h
    exact .inr ha
  | cons p rest ih =>
    obtain ⟨m, md⟩ := p
    simp only [groupFrom] at h
    cases hp : processMetric resolve m md st with
    | error e => rw [hp] at h; exact absurd h (by simp)
    | ok stm =>
      rw [hp] at h
      rcases ih h with hr | hr
      · refine .inl ?_
        unfold rawSeries at hr ⊢
        obtain ⟨q, hq, haq⟩ := List.mem_flatMap.1 hr
        exact List.mem_flatMap.2 ⟨q, List.mem_cons_of_mem _ hq, haq⟩
      · rcases processMetric_series hp hr with hm | hm
        · exact .inl (List.mem_flatMap.2 ⟨(m, md), List.mem_cons_self _ _, hm⟩)
        · exact .inr hm

/-- C2 amended: the aggregator does not drop a length-mismatched series —
it stores every series exactly as found, so each series in a successful
aggregated report is byte-for-byte the `timestamps`/`values` of some
input data point (in particular nothing is ever truncated or
zero-padded); the drop of mismatched series happens at rendering time,
where `generate_graph` of `metricsAPI.py` returns no chart whenever the
lengths differ. -/
theorem mismatched_series_stored_then_dropped_at_render :
    (∀ (resolve : String → String) (raw : List (String × MetricData))
        (st : GroupState), group_data resolve raw = .ok st →
      ∀ a ∈ reportSeries st.report, a ∈ rawSeries raw) ∧
    (∀ (ts : List Int) (vs : List (Option ℚ)), ts.length ≠ vs.length →
      mAPI_generate_graph ts vs = none) := by
  constructor
  · intro resolve raw st h a ha
    rcases groupFrom_series h ha with hr | hr
    · exact hr
    · simp [initGroupState, reportSeries] at hr
  · intro ts vs h
    unfold mAPI_generate_graph
    by_cases he : ts = [] ∨ vs = []
    · rw [if_pos he]
    · rw [if_neg he, if_pos h]

/-- Witness for the C2 amended theorem: the mismatched series stored by
the counterexample run indeed comes verbatim from the input, and the
`metricsAPI.py` renderer refuses it. -/
theorem mismatched_series_stored_then_dropped_at_render_witness :
    (⟨[1, 2], [some 5]⟩ : Series) ∈ rawSeries
      [("Processor", ⟨some [⟨some [⟨some ["HOST-1"], some [1, 2], some [some 5]⟩]⟩]⟩)] ∧
    mAPI_generate_graph [1, 2] [some 5] = none :=
  ⟨mismatched_series_stored_then_dropped_at_render.1 (fun _ => "web-01")
      [("Processor", ⟨some [⟨some [⟨some ["HOST-1"], some [1, 2], some [some 5]⟩]⟩]⟩)]
      ⟨[("web-01", [("Processor", ⟨[1, 2], [some 5]⟩)])],
        [("HOST-1", "web-01")], ["HOST-1"], 0⟩ rfl ⟨[1, 2], [some 5]⟩ (by decide),
    mismatched_series_stored_then_dropped_at_render.2 [1, 2] [some 5] (by decide)⟩

/-! ## C4 -/

/-- C4 counterexample: a disk-split series with dimensions
`["DISK-001"]` whose name resolution falls back to the raw id (as
`fetch_host_name` does on any lookup failure) is not dropped: the
aggregated report gains a host entry keyed by the raw disk id holding the
series, and no warning diagnostic is recorded (`warnings = 0`) —
`group_data` performs no `isDiskOf` relationship lookup at all. -/
theorem group_data_disk_series_kept_under_raw_id :
    group_data (fun id => id)
        [("Average Disk Used Percentage",
          ⟨some [⟨some [⟨some ["DISK-001"], some [1], some [some 1]⟩]⟩]⟩)] =
      .ok ⟨[("DISK-001", [("Average Disk Used Percentage", ⟨[1], [some 1]⟩)])],
        [("DISK-001", "DISK-001")], ["DISK-001"], 0⟩ :=
  rfl

/-- The display name `group_data` files a data point under, given the
cache state when the point is reached: the cached name on a hit,
`resolve hid` (the `fetch_host_name` result) on a miss. -/
def resolvedNameAfter (st : GroupState) (resolve : String → String)
    (hid : String) : String :=
  match alistLookup hid st.cache with
  | some n => n
  | none => resolve hid

/-- C4 amended: `group_data` gives disk-split series no special
treatment and never consults `isDiskOf`: any data point with a leading
dimension `hid` — disk id or host id alike — is kept, filed under the
resolved name (the raw id itself whenever resolution falls back to it)
with its series unchanged and no diagnostic recorded; only the
standalone probe `test_pig.py` inspects the `isDiskOf` relationship, and
it merely logs its absence without dropping anything or touching any
report. -/
theorem disk_series_grouped_not_dropped :
    (∀ (resolve : String → String) (m : String) (dp : DataPoint)
        (st : GroupState) (hid : String), getHostId dp = .ok (some hid) →
      ∃ st' hr, processPoint resolve m dp st = .ok st' ∧
        st'.warnings = st.warnings ∧
        alistLookup (resolvedNameAfter st resolve hid) st'.report = some hr ∧
        alistLookup m hr = some (seriesOfPoint dp)) ∧
    isDiskOf_probe (some []) =
      (none, "No 'isDiskOf' relationship found for this disk.") := by
  constructor
  · intro resolve m dp st hid hg
    cases hc : alistLookup hid st.cache with
    | some n =>
      refine ⟨⟨reportInsert n m (seriesOfPoint dp) st.report, st.cache,
          st.lookups, st.warnings⟩,
        alistInsert m (seriesOfPoint dp) ((alistLookup n st.report).getD []),
        ?_, rfl, ?_, ?_⟩
      · unfold processPoint
        rw [hg]
        simp [hc, seriesOfPoint]
      · show alistLookup (resolvedNameAfter st resolve hid)
          (reportInsert n m (seriesOfPoint dp) st.report) = _
        unfold resolvedNameAfter reportInsert
        rw [hc]
        exact alistLookup_insert_self _ _ _
      · exact alistLookup_insert_self _ _ _
    | none =>
      refine ⟨⟨reportInsert (resolve hid) m (seriesOfPoint dp) st.report,
          alistInsert hid (resolve hid) st.cache, st.lookups ++ [hid],
          st.warnings⟩,
        alistInsert m (seriesOfPoint dp) ((alistLookup (resolve hid) st.report).getD []),
        ?_, rfl, ?_, ?_⟩
      · unfold processPoint
        rw [hg]
        simp [hc, seriesOfPoint, alistLookup_insert_self]
      · show alistLookup (resolvedNameAfter st resolve hid)
          (reportInsert (resolve hid) m (seriesOfPoint dp) st.report) = _
        unfold resolvedNameAfter reportInsert
        rw [hc]
        exact alistLookup_insert_self _ _ _
      · exact alistLookup_insert_self _ _ _
  · rfl

/-- Witness for the C4 amended theorem at the counterexample's disk
data point, starting from the initial state with identity resolution. -/
theorem disk_series_grouped_not_dropped_witness :
    getHostId ⟨some ["DISK-001"], some [1], some [some 1]⟩ = .ok (some "DISK-001") ∧
    ∃ st' hr, processPoint (fun id => id) "Average Disk Used Percentage"
        ⟨some ["DISK-001"], some [1], some [some 1]⟩ initGroupState = .ok st' ∧
      st'.warnings = initGroupState.warnings ∧
      alistLookup (resolvedNameAfter initGroupState (fun id => id) "DISK-001")
        st'.report = some hr ∧
      alistLookup "Average Disk Used Percentage" hr =
        some (seriesOfPoint ⟨some ["DISK-001"], some [1], some [some 1]⟩) :=
  ⟨rfl, disk_series_grouped_not_dropped.1 (fun id => id)
    "Average Disk Used Percentage" ⟨some ["DISK-001"], some [1], some [some 1]⟩
    initGroupState "DISK-001" rfl⟩

/-! ## C7 -/

theorem placeCharts_bounds (ms : List (String × Series)) (st : LayoutSt)
    (hy : st.y ≤ pageHeight - pdfMargin) :
    (∀ pl ∈ (placeCharts ms st).1, pl.top ≤ pageHeight - pdfMargin ∧
      pdfMargin + chartSpacing ≤ pl.top - chartHeight) ∧
    (placeCharts ms st).2.y ≤ pageHeight - pdfMargin := by
  induction ms generalizing st with
  | nil => exact ⟨by simp [placeCharts], hy⟩
  | cons p rest ih =>
    obtain ⟨mn, s⟩ := p
    cases hr : chartRendered s with
    | false =>
      constructor
      · intro pl hpl
        simp only [placeCharts, hr, Bool.false_eq_true, if_false] at hpl
        exact (ih st hy).1 pl hpl
      · simp only [placeCharts, hr, Bool.false_eq_true, if_false]
        exact (ih st hy).2
    | true =>
      by_cases hcond : st.y - chartHeight - chartSpacing < pdfMargin
      · have hrec := ih ⟨st.page + 1,
          (pageHeight - pdfMargin) - (chartHeight + chartSpacing)⟩
          (by simp [pageHeight, pdfMargin, chartHeight, chartSpacing])
        constructor
        · intro pl hpl
          simp only [placeCharts, hr, if_true, if_pos hcond,
            List.mem_cons] at hpl
          rcases hpl with hpl | hpl
          · subst hpl
            constructor
            · simp
            · simp [pageHeight, pdfMargin, chartHeight, chartSpacing]
          · exact hrec.1 pl hpl
        · simp only [placeCharts, hr, if_true, if_pos hcond]
          exact hrec.2
      · have hrec := ih ⟨st.page, st.y - (chartHeight + chartSpacing)⟩
          (by
            simp only [pageHeight, pdfMargin, chartHeight, chartSpacing] at hy ⊢
            omega)
        constructor
        · intro pl hpl
          simp only [placeCharts, hr, if_true, if_neg hcond,
            List.mem_cons] at hpl
          rcases hpl with hpl | hpl
          · subst hpl
            refine ⟨hy, ?_⟩
            simp only [pageHeight, pdfMargin, chartHeight, chartSpacing] at hcond ⊢
            omega
          · exact hrec.1 pl hpl
        · simp only [placeCharts, hr, if_true, if_neg hcond]
          exact hrec.2

theorem placeHosts_bounds (hosts : List (String × List (String × Series)))
    (st : LayoutSt) :
    ∀ pl ∈ placeHosts hosts st, pl.top ≤ pageHeight - pdfMargin ∧
      pdfMargin + chartSpacing ≤ pl.top - chartHeight := by
  induction hosts generalizing st with
  | nil => simp [placeHosts]
  | cons h rest ih =>
    obtain ⟨hn, ms⟩ := h
    intro pl hpl
    simp only [placeHosts, List.mem_append] at hpl
    have hstart : (pageHeight - pdfMargin - 20 - 30 : Int) ≤ pageHeight - pdfMargin := by
      simp [pageHeight, pdfMargin]
    rcases hpl with hpl | hpl
    · exact (placeCharts_bounds ms ⟨st.page + 1, pageHeight - pdfMargin - 20 - 30⟩
        hstart).1 pl hpl
    · exact ih _ pl hpl

/-- C7: no chart is ever split across a page boundary. By construction
`placeCharts` starts a new page (with the cursor reset to
`height - margin`) exactly when
`y_position - chart_height - chart_spacing < margin`, before placing the
chart; the resulting invariant proved here is that every placed chart
image — the vertical band `[top - chart_height, top]` of its single page
— lies entirely inside the printable area of that one page:
`margin + chart_spacing ≤ top - chart_height` and
`top ≤ page_height - margin`. -/
theorem create_pdf_no_chart_split (hosts : List (String × List (String × Series)))
    (pl : Placement) (hpl : pl ∈ create_pdf_placements hosts) :
    pdfMargin + chartSpacing ≤ pl.top - chartHeight ∧
      pl.top ≤ pageHeight - pdfMargin := by
  have := placeHosts_bounds hosts ⟨1, pageHeight - pdfMargin - 150⟩ pl hpl
  exact ⟨this.2, this.1⟩

/-- Witness for the C7 theorem: a concrete five-chart host overflows
page 2 and the fourth chart is placed at the top of page 3, within
bounds. -/
theorem create_pdf_no_chart_split_witness :
    (⟨3, 742⟩ : Placement) ∈ create_pdf_placements
      [("host-a", [("m1", ⟨[1], [some 1]⟩), ("m2", ⟨[1], [some 1]⟩),
        ("m3", ⟨[1], [some 1]⟩), ("m4", ⟨[1], [some 1]⟩)])] ∧
    pdfMargin + chartSpacing ≤ (742 : Int) - chartHeight ∧
      (742 : Int) ≤ pageHeight - pdfMargin :=
  ⟨by decide, create_pdf_no_chart_split
    [("host-a", [("m1", ⟨[1], [some 1]⟩), ("m2", ⟨[1], [some 1]⟩),
      ("m3", ⟨[1], [some 1]⟩), ("m4", ⟨[1], [some 1]⟩)])] ⟨3, 742⟩ (by decide)⟩

/-! ## C5 -/

/-- The host id a data point contributes for resolution, if any (`none`
both for a dropped falsy id and for the shape that would raise). -/
def pointId (dp : DataPoint) : Option String :=
  match getHostId dp with
  | .ok (some h) => some h
  | _ => none

/-- All host ids that reach the resolution step of a `group_data` run
(with multiplicity; membership is what matters). -/
def validIds (raw : List (String × MetricData)) : List String :=
  raw.flatMap (fun p => (rawPoints p.2).filterMap pointId)

/-- The cache discipline `group_data` maintains: the underlying lookup
has run exactly once for every cached id and never for any other, and
the cache only ever holds the resolution oracle's answer. -/
def CacheInv (resolve : String → String) (st : GroupState) : Prop :=
  (∀ id, st.lookups.count id =
    if (alistLookup id st.cache).isSome then 1 else 0) ∧
  (∀ id, (alistLookup id st.cache).isSome →
    alistLookup id st.cache = some (resolve id))

theorem processPoint_cache (h : processPoint resolve m dp st = .ok st')
    (hinv : CacheInv resolve st) :
    CacheInv resolve st' ∧
    ∀ id, (alistLookup id st'.cache).isSome ↔
      ((alistLookup id st.cache).isSome ∨ pointId dp = some id) := by
  unfold processPoint at h
  cases hg : getHostId dp with
  | error e =>
    rw [hg] at h
    exact absurd h (by simp)
  | ok o =>
    cases o with
    | none =>
      rw [hg] at h
      simp only [Except.ok.injEq] at h
      subst h
      refine ⟨hinv, fun id => ?_⟩
      simp [pointId, hg]
    | some hid =>
      rw [hg] at h
      simp only [Except.ok.injEq] at h
      subst h
      have hpid : pointId dp = some hid := by simp [pointId, hg]
      by_cases hc : (alistLookup hid st.cache).isSome
      · rw [if_pos hc]
        refine ⟨hinv, fun id => ?_⟩
        by_cases hi : id = hid
        · subst hi
          simp [hc, hpid]
        · have hih : ¬hid = id := fun he => hi he.symm
          simp [hpid, hih]
      · rw [if_neg hc]
        constructor
        · constructor
          · intro id
            dsimp only
            rw [List.count_append]
            by_cases hi : id = hid
            · subst hi
              rw [alistLookup_insert_self]
              have h0 : st.lookups.count id = 0 := by
                have := hinv.1 id
                rwa [if_neg hc] at this
              simp [h0, List.count_cons]
            · rw [alistLookup_insert_ne hi _ _]
              have h1 : List.count id [hid] = 0 := by
                simp [List.count_cons, hi]
              rw [h1, hinv.1 id]
              omega
          · intro id hs
            dsimp only at hs ⊢
            by_cases hi : id = hid
            · subst hi
              rw [alistLookup_insert_self]
            · rw [alistLookup_insert_ne hi _ _] at hs ⊢
              exact hinv.2 id hs
        · intro id
          dsimp only
          by_cases hi : id = hid
          · subst hi
            simp [alistLookup_insert_self, hpid]
          · rw [alistLookup_insert_ne hi _ _]
            have hih : ¬hid = id := fun he => hi he.symm
            simp [hpid, hih]

theorem processPoints_cache {dps : List DataPoint}
    (h : processPoints resolve m dps st = .ok st')
    (hinv : CacheInv resolve st) :
    CacheInv resolve st' ∧
    ∀ id, (alistLookup id st'.cache).isSome ↔
      ((alistLookup id st.cache).isSome ∨ id ∈ dps.filterMap pointId) := by
  induction dps generalizing st with
  | nil =>
    simp only [processPoints, Except.ok.injEq] at h
    subst h
    exact ⟨hinv, fun id => by simp⟩
  | cons dp rest ih =>
    simp only [processPoints] at h
    cases hp : processPoint resolve m dp st with
    | error e =>
      rw [hp] at h
      exact absurd h (by simp)
    | ok stm =>
      rw [hp] at h
      obtain ⟨hinvm, hiffm⟩ := processPoint_cache hp hinv
      obtain ⟨hinv', hiff'⟩ := ih h hinvm
      refine ⟨hinv', fun id => ?_⟩
      rw [hiff' id, hiffm id]
      simp only [List.filterMap_cons]
      cases hpt : pointId dp with
      | none => simp [hpt]
      | some x =>
        simp only [List.mem_cons, Option.some.injEq]
        constructor
        · rintro ((hs | he) | hm)
          · exact .inl hs
          · exact .inr (.inl he.symm)
          · exact .inr (.inr hm)
        · rintro (hs | he | hm)
          · exact .inl (.inl hs)
          · exact .inl (.inr he.symm)
          · exact .inr hm

theorem processMetric_cache (h : processMetric resolve m md st = .ok st')
    (hinv : CacheInv resolve st) :
    CacheInv resolve st' ∧
    ∀ id, (alistLookup id st'.cache).isSome ↔
      ((alistLookup id st.cache).isSome ∨
        id ∈ (rawPoints md).filterMap pointId) := by
  unfold processMetric at h
  unfold rawPoints
  cases hres : md.result with
  | none =>
    rw [hres] at h
    exact absurd h (by simp)
  | some rs =>
    cases rs with
    | nil =>
      rw [hres] at h
      exact absurd h (by simp)
    | cons r rest =>
      rw [hres] at h
      exact processPoints_cache h hinv

theorem groupFrom_cache {raw : List (String × MetricData)}
    (h : groupFrom resolve raw st = .ok st')
    (hinv : CacheInv resolve st) :
    CacheInv resolve st' ∧
    ∀ id, (alistLookup id st'.cache).isSome ↔
      ((alistLookup id st.cache).isSome ∨ id ∈ validIds raw) := by
  induction raw generalizing st with
  | nil =>
    simp only [groupFrom, Except.ok.injEq] at h
    subst h
    exact ⟨hinv, fun id => by simp [validIds]⟩
  | cons p rest ih =>
    obtain ⟨m, md⟩ := p
    simp only [groupFrom] at h
    cases hp : processMetric resolve m md st with
    | error e =>
      rw [hp] at h
      exact absurd h (by simp)
    | ok stm =>
      rw [hp] at h
      obtain ⟨hinvm, hiffm⟩ := processMetric_cache hp hinv
      obtain ⟨hinv', hiff'⟩ := ih h hinvm
      refine ⟨hinv', fun id => ?_⟩
      rw [hiff' id, hiffm id]
      unfold validIds
      simp only [List.flatMap_cons, List.mem_append]
      tauto

/-- C5: the cache single-lookup invariant. In any successful
`group_data` run, the underlying `fetch_host_name` lookup was invoked
exactly once for every unique host id that reached resolution and never
otherwise, and every id that reached resolution is cached with the
oracle's answer — hence every data point carrying that id was filed
under that one identical display name. -/
theorem group_data_single_lookup (resolve : String → String)
    (raw : List (String × MetricData)) (st : GroupState)
    (h : group_data resolve raw = .ok st) :
    (∀ id, st.lookups.count id = if id ∈ validIds raw then 1 else 0) ∧
    (∀ id, id ∈ validIds raw → alistLookup id st.cache = some (resolve id)) := by
  have hinv0 : CacheInv resolve initGroupState := by
    constructor
    · intro id
      simp [initGroupState, alistLookup]
    · intro id hs
      simp [initGroupState, alistLookup] at hs
  obtain ⟨hinv, hiff⟩ := groupFrom_cache h hinv0
  have hiff' : ∀ id, (alistLookup id st.cache).isSome ↔ id ∈ validIds raw := by
    intro id
    rw [hiff id]
    simp [initGroupState, alistLookup]
  constructor
  · intro id
    rw [hinv.1 id]
    by_cases hm : id ∈ validIds raw
    · rw [if_pos hm, if_pos ((hiff' id).2 hm)]
    · rw [if_neg hm, if_neg (fun hs => hm ((hiff' id).1 hs))]
  · intro id hm
    exact hinv.2 id ((hiff' id).2 hm)

/-- Witness for the C5 theorem: one host id appearing under two metrics
is looked up once and resolved consistently. -/
theorem group_data_single_lookup_witness :
    (⟨[("web-01", [("Processor", ⟨[1], [some 1]⟩), ("Memory", ⟨[1], [some 1]⟩)])],
      [("HOST-1", "web-01")], ["HOST-1"], 0⟩ : GroupState).lookups.count "HOST-1" = 1 ∧
    alistLookup "HOST-1"
      (⟨[("web-01", [("Processor", ⟨[1], [some 1]⟩), ("Memory", ⟨[1], [some 1]⟩)])],
        [("HOST-1", "web-01")], ["HOST-1"], 0⟩ : GroupState).cache = some "web-01" :=
  ⟨((group_data_single_lookup (fun _ => "web-01")
      [("Processor", ⟨some [⟨some [⟨some ["HOST-1"], some [1], some [some 1]⟩]⟩]⟩),
       ("Memory", ⟨some [⟨some [⟨some ["HOST-1"], some [1], some [some 1]⟩]⟩]⟩)]
      _ rfl).1 "HOST-1").trans (by decide),
    (group_data_single_lookup (fun _ => "web-01")
      [("Processor", ⟨some [⟨some [⟨some ["HOST-1"], some [1], some [some 1]⟩]⟩]⟩),
       ("Memory", ⟨some [⟨some [⟨some ["HOST-1"], some [1], some [some 1]⟩]⟩]⟩)]
      _ rfl).2 "HOST-1" (by decide)⟩

/-! ## C10 -/

/-- C10: the silent last-write-wins collision. When one metric carries
two data points whose host ids resolve to the same display name,
`group_data` files both under the same `grouped_data[name][metric]` key:
the assignment of the later point overwrites the earlier one, the
earlier series is gone from the report, and no warning diagnostic is
recorded (`warnings = 0`). -/
theorem group_data_duplicate_key_overwrites (resolve : String → String)
    (m : String) (dp1 dp2 : DataPoint) (h1 h2 : String) (st : GroupState)
    (hg1 : getHostId dp1 = .ok (some h1)) (hg2 : getHostId dp2 = .ok (some h2))
    (hres : resolve h1 = resolve h2)
    (h : group_data resolve [(m, ⟨some [⟨some [dp1, dp2]⟩]⟩)] = .ok st) :
    st.report = [(resolve h1, [(m, seriesOfPoint dp2)])] ∧ st.warnings = 0 := by
  have hA : processPoint resolve m dp1 initGroupState =
      .ok ⟨[(resolve h1, [(m, seriesOfPoint dp1)])], [(h1, resolve h1)], [h1], 0⟩ := by
    simp [processPoint, hg1, initGroupState, alistLookup, alistInsert,
      reportInsert, seriesOfPoint]
  simp only [group_data, groupFrom, processMetric, processPoints] at h
  rw [hA] at h
  dsimp only at h
  by_cases hh : h2 = h1
  · subst hh
    have hB : processPoint resolve m dp2
        ⟨[(resolve h2, [(m, seriesOfPoint dp1)])], [(h2, resolve h2)], [h2], 0⟩ =
        .ok ⟨[(resolve h2, [(m, seriesOfPoint dp2)])], [(h2, resolve h2)], [h2], 0⟩ := by
      simp [processPoint, hg2, alistLookup, alistInsert, reportInsert, seriesOfPoint]
    rw [hB] at h
    dsimp only at h
    simp only [Except.ok.injEq] at h
    subst h
    exact ⟨rfl, rfl⟩
  · have hne : ¬h1 = h2 := fun he => hh he.symm
    have hB : processPoint resolve m dp2
        ⟨[(resolve h1, [(m, seriesOfPoint dp1)])], [(h1, resolve h1)], [h1], 0⟩ =
        .ok ⟨[(resolve h1, [(m, seriesOfPoint dp2)])],
          [(h1, resolve h1), (h2, resolve h2)], [h1, h2], 0⟩ := by
      simp only [processPoint, hg2, alistLookup, hne, if_neg hne,
        Option.isSome_none, Bool.false_eq_true, if_false, alistInsert,
        if_pos rfl, reportInsert, seriesOfPoint]
      rw [← hres]
      simp [alistLookup, alistInsert, reportInsert]
    rw [hB] at h
    dsimp only at h
    simp only [Except.ok.injEq] at h
    subst h
    exact ⟨rfl, rfl⟩

/-- Witness for the C10 theorem: two concrete points with distinct host
ids that resolve to the same name collapse to the later series. -/
theorem group_data_duplicate_key_overwrites_witness :
    (⟨[("web-01", [("Processor", ⟨[2], [some 2]⟩)])],
      [("HOST-1", "web-01"), ("HOST-2", "web-01")], ["HOST-1", "HOST-2"], 0⟩ :
        GroupState).report =
      [("web-01", [("Processor", seriesOfPoint ⟨some ["HOST-2"], some [2], some [some 2]⟩)])] ∧
    (⟨[("web-01", [("Processor", ⟨[2], [some 2]⟩)])],
      [("HOST-1", "web-01"), ("HOST-2", "web-01")], ["HOST-1", "HOST-2"], 0⟩ :
        GroupState).warnings = 0 := by
  have := group_data_duplicate_key_overwrites (fun _ => "web-01") "Processor"
    ⟨some ["HOST-1"], some [1], some [some 1]⟩
    ⟨some ["HOST-2"], some [2], some [some 2]⟩ "HOST-1" "HOST-2" _ rfl rfl rfl rfl
  exact this
